import Mathlib

/-!
# Parameter-ID table of the py-noise falloff description

Embedding of `plugins/py-noise_falloff_r14/res/description/Ofalloff_pynoise.h`.
The header is a single anonymous C `enum` in which every enumerator carries an
explicit initialiser.  An enumerator is modelled as a constructor of `Ident`
(same spelling as in the header), its initialiser as `Ident.value` (a C `int`,
hence `Int`), and the order of the enumerators in the header as `decls`.
-/

namespace OfalloffPynoise

/-- The enumerators of the anonymous enum, in the order the header declares them. -/
inductive Ident where
  | PYNOISEFALLOFF_SETTINGS
  | PYNOISEFALLOFF_SEED
  | PYNOISEFALLOFF_TYPE
  | NOISE_BOX_NOISE
  | NOISE_BLIST_TURB
  | NOISE_BUYA
  | NOISE_CELL_NOISE
  | NOISE_CRANAL
  | NOISE_DENTS
  | NOISE_DISPL_TURB
  | NOISE_FBM
  | NOISE_HAMA
  | NOISE_LUKA
  | NOISE_MOD_NOISE
  | NOISE_NAKI
  | NOISE_NOISE
  | NOISE_NUTOUS
  | NOISE_OBER
  | NOISE_PEZO
  | NOISE_POXO
  | NOISE_RANDOM
  | NOISE_SEMA
  | NOISE_STUPL
  | NOISE_TURBULENCE
  | NOISE_VL_NOISE
  | NOISE_WAVY_TURB
  | NOISE_CELL_VORONOI
  | NOISE_DISPL_VORONOI
  | NOISE_SPARSE_CONV
  | NOISE_VORONOI_1
  | NOISE_VORONOI_2
  | NOISE_VORONOI_3
  | NOISE_ZADA
  | NOISE_FIRE
  | NOISE_ELECTRIC
  | NOISE_GASEOUS
  | NOISE_NONE
  | PYNOISEFALLOFF_SAMPLING
  | SAMPLING_2D
  | SAMPLING_3D
  | PYNOISEFALLOFF_SAMPRAD
  | PYNOISEFALLOFF_DETATT
  | PYNOISEFALLOFF_REPEAT
  | REPEAT_0
  | REPEAT_1
  | REPEAT_3
  | REPEAT_7
  | REPEAT_15
  | REPEAT_31
  | REPEAT_63
  | REPEAT_127
  | REPEAT_255
  | REPEAT_511
  | REPEAT_1023
  | PYNOISEFALLOFF_OCTAVES
  | PYNOISEFALLOFF_ABSOLUTE
  | PYNOISEFALLOFF_FBMSETTINGS
  | PYNOISEFALLOFF_MAXOCTAVE
  | PYNOISEFALLOFF_LACUNARITY
  | PYNOISEFALLOFF_H
  deriving DecidableEq, Repr

open Ident

/-- The integer each enumerator is initialised with in the header. -/
def Ident.value : Ident → Int
  | PYNOISEFALLOFF_SETTINGS => 7000
  | PYNOISEFALLOFF_SEED => 5000
  | PYNOISEFALLOFF_TYPE => 5001
  | NOISE_BOX_NOISE => 1
  | NOISE_BLIST_TURB => 2
  | NOISE_BUYA => 3
  | NOISE_CELL_NOISE => 4
  | NOISE_CRANAL => 5
  | NOISE_DENTS => 6
  | NOISE_DISPL_TURB => 7
  | NOISE_FBM => 8
  | NOISE_HAMA => 9
  | NOISE_LUKA => 10
  | NOISE_MOD_NOISE => 11
  | NOISE_NAKI => 12
  | NOISE_NOISE => 13
  | NOISE_NUTOUS => 14
  | NOISE_OBER => 15
  | NOISE_PEZO => 16
  | NOISE_POXO => 17
  | NOISE_RANDOM => 18
  | NOISE_SEMA => 19
  | NOISE_STUPL => 20
  | NOISE_TURBULENCE => 21
  | NOISE_VL_NOISE => 22
  | NOISE_WAVY_TURB => 23
  | NOISE_CELL_VORONOI => 24
  | NOISE_DISPL_VORONOI => 25
  | NOISE_SPARSE_CONV => 26
  | NOISE_VORONOI_1 => 27
  | NOISE_VORONOI_2 => 28
  | NOISE_VORONOI_3 => 29
  | NOISE_ZADA => 30
  | NOISE_FIRE => 31
  | NOISE_ELECTRIC => 32
  | NOISE_GASEOUS => 33
  | NOISE_NONE => 99
  | PYNOISEFALLOFF_SAMPLING => 5002
  | SAMPLING_2D => 0
  | SAMPLING_3D => 1
  | PYNOISEFALLOFF_SAMPRAD => 5003
  | PYNOISEFALLOFF_DETATT => 5004
  | PYNOISEFALLOFF_REPEAT => 5005
  | REPEAT_0 => 0
  | REPEAT_1 => 1
  | REPEAT_3 => 3
  | REPEAT_7 => 7
  | REPEAT_15 => 15
  | REPEAT_31 => 31
  | REPEAT_63 => 63
  | REPEAT_127 => 127
  | REPEAT_255 => 255
  | REPEAT_511 => 511
  | REPEAT_1023 => 1023
  | PYNOISEFALLOFF_OCTAVES => 5006
  | PYNOISEFALLOFF_ABSOLUTE => 5007
  | PYNOISEFALLOFF_FBMSETTINGS => 7001
  | PYNOISEFALLOFF_MAXOCTAVE => 5008
  | PYNOISEFALLOFF_LACUNARITY => 5009
  | PYNOISEFALLOFF_H => 5010

/-- The enumerator list of the header, top to bottom. -/
def decls : List Ident :=
  [ PYNOISEFALLOFF_SETTINGS,
    PYNOISEFALLOFF_SEED,
    PYNOISEFALLOFF_TYPE,
    NOISE_BOX_NOISE, NOISE_BLIST_TURB, NOISE_BUYA, NOISE_CELL_NOISE, NOISE_CRANAL,
    NOISE_DENTS, NOISE_DISPL_TURB, NOISE_FBM, NOISE_HAMA, NOISE_LUKA, NOISE_MOD_NOISE,
    NOISE_NAKI, NOISE_NOISE, NOISE_NUTOUS, NOISE_OBER, NOISE_PEZO, NOISE_POXO,
    NOISE_RANDOM, NOISE_SEMA, NOISE_STUPL, NOISE_TURBULENCE, NOISE_VL_NOISE,
    NOISE_WAVY_TURB, NOISE_CELL_VORONOI, NOISE_DISPL_VORONOI, NOISE_SPARSE_CONV,
    NOISE_VORONOI_1, NOISE_VORONOI_2, NOISE_VORONOI_3, NOISE_ZADA, NOISE_FIRE,
    NOISE_ELECTRIC, NOISE_GASEOUS,
    NOISE_NONE,
    PYNOISEFALLOFF_SAMPLING,
    SAMPLING_2D, SAMPLING_3D,
    PYNOISEFALLOFF_SAMPRAD,
    PYNOISEFALLOFF_DETATT,
    PYNOISEFALLOFF_REPEAT,
    REPEAT_0, REPEAT_1, REPEAT_3, REPEAT_7, REPEAT_15, REPEAT_31, REPEAT_63,
    REPEAT_127, REPEAT_255, REPEAT_511, REPEAT_1023,
    PYNOISEFALLOFF_OCTAVES,
    PYNOISEFALLOFF_ABSOLUTE,
    PYNOISEFALLOFF_FBMSETTINGS,
    PYNOISEFALLOFF_MAXOCTAVE,
    PYNOISEFALLOFF_LACUNARITY,
    PYNOISEFALLOFF_H ]

/-- The logical groups the header lays its enumerators out in: the two
`...SETTINGS` group markers, the remaining `PYNOISEFALLOFF_*` parameter slots,
and the option values nested (by indentation and by name prefix) under the
`TYPE`, `SAMPLING` and `REPEAT` slots. -/
inductive Kind where
  | group
  | slot
  | noiseType
  | samplingMode
  | repeatPeriod
  deriving DecidableEq, Repr

/-- The logical group of an enumerator, read off its name prefix. -/
def Ident.kind : Ident → Kind
  | PYNOISEFALLOFF_SETTINGS => Kind.group
  | PYNOISEFALLOFF_FBMSETTINGS => Kind.group
  | PYNOISEFALLOFF_SEED => Kind.slot
  | PYNOISEFALLOFF_TYPE => Kind.slot
  | PYNOISEFALLOFF_SAMPLING => Kind.slot
  | PYNOISEFALLOFF_SAMPRAD => Kind.slot
  | PYNOISEFALLOFF_DETATT => Kind.slot
  | PYNOISEFALLOFF_REPEAT => Kind.slot
  | PYNOISEFALLOFF_OCTAVES => Kind.slot
  | PYNOISEFALLOFF_ABSOLUTE => Kind.slot
  | PYNOISEFALLOFF_MAXOCTAVE => Kind.slot
  | PYNOISEFALLOFF_LACUNARITY => Kind.slot
  | PYNOISEFALLOFF_H => Kind.slot
  | SAMPLING_2D => Kind.samplingMode
  | SAMPLING_3D => Kind.samplingMode
  | REPEAT_0 => Kind.repeatPeriod
  | REPEAT_1 => Kind.repeatPeriod
  | REPEAT_3 => Kind.repeatPeriod
  | REPEAT_7 => Kind.repeatPeriod
  | REPEAT_15 => Kind.repeatPeriod
  | REPEAT_31 => Kind.repeatPeriod
  | REPEAT_63 => Kind.repeatPeriod
  | REPEAT_127 => Kind.repeatPeriod
  | REPEAT_255 => Kind.repeatPeriod
  | REPEAT_511 => Kind.repeatPeriod
  | REPEAT_1023 => Kind.repeatPeriod
  | _ => Kind.noiseType

/-- The enumerators of one logical group, in declaration order. -/
def ofKind (k : Kind) : List Ident :=
  decls.filter (fun c => c.kind = k)

/-- The parameter-slot identifiers, in declaration order. -/
def slots : List Ident := ofKind Kind.slot

/-- The two group identifiers. -/
def groups : List Ident := ofKind Kind.group

/-- The parameter-slot identifiers together with the group identifiers: every
`PYNOISEFALLOFF_*` enumerator, in declaration order. -/
def paramIds : List Ident :=
  decls.filter (fun c => c.kind = Kind.slot ∨ c.kind = Kind.group)

/-- The `NOISE_*` enumerators, the `NOISE_NONE` sentinel included. -/
def noiseTypes : List Ident := ofKind Kind.noiseType

/-- The `NOISE_*` enumerators that name an algorithm: all but `NOISE_NONE`. -/
def noiseAlgos : List Ident :=
  noiseTypes.filter (fun c => c ≠ NOISE_NONE)

/-- The `SAMPLING_*` enumerators. -/
def samplingModes : List Ident := ofKind Kind.samplingMode

/-- The `REPEAT_*` enumerators, in declaration order. -/
def repeats : List Ident := ofKind Kind.repeatPeriod

/-- Whether an enumerator is an option value of a closed-choice parameter. -/
def Ident.isOption (c : Ident) : Bool :=
  c.kind = Kind.noiseType || c.kind = Kind.samplingMode || c.kind = Kind.repeatPeriod

/-- All option values: the `NOISE_*`, `SAMPLING_*` and `REPEAT_*` enumerators. -/
def options : List Ident := decls.filter Ident.isOption

/-! ## Shape of the table -/

theorem mem_decls (c : Ident) : c ∈ decls := by
  cases c <;> decide

theorem decls_nodup : decls.Nodup := by decide

theorem decls_length : decls.length = 60 := by decide

theorem slots_eq : slots =
    [PYNOISEFALLOFF_SEED, PYNOISEFALLOFF_TYPE, PYNOISEFALLOFF_SAMPLING,
     PYNOISEFALLOFF_SAMPRAD, PYNOISEFALLOFF_DETATT, PYNOISEFALLOFF_REPEAT,
     PYNOISEFALLOFF_OCTAVES, PYNOISEFALLOFF_ABSOLUTE, PYNOISEFALLOFF_MAXOCTAVE,
     PYNOISEFALLOFF_LACUNARITY, PYNOISEFALLOFF_H] := by decide

theorem groups_eq : groups = [PYNOISEFALLOFF_SETTINGS, PYNOISEFALLOFF_FBMSETTINGS] := by
  decide

theorem paramIds_eq : paramIds =
    [PYNOISEFALLOFF_SETTINGS, PYNOISEFALLOFF_SEED, PYNOISEFALLOFF_TYPE,
     PYNOISEFALLOFF_SAMPLING, PYNOISEFALLOFF_SAMPRAD, PYNOISEFALLOFF_DETATT,
     PYNOISEFALLOFF_REPEAT, PYNOISEFALLOFF_OCTAVES, PYNOISEFALLOFF_ABSOLUTE,
     PYNOISEFALLOFF_FBMSETTINGS, PYNOISEFALLOFF_MAXOCTAVE, PYNOISEFALLOFF_LACUNARITY,
     PYNOISEFALLOFF_H] := by decide

theorem noiseAlgos_eq : noiseAlgos =
    [NOISE_BOX_NOISE, NOISE_BLIST_TURB, NOISE_BUYA, NOISE_CELL_NOISE, NOISE_CRANAL,
     NOISE_DENTS, NOISE_DISPL_TURB, NOISE_FBM, NOISE_HAMA, NOISE_LUKA, NOISE_MOD_NOISE,
     NOISE_NAKI, NOISE_NOISE, NOISE_NUTOUS, NOISE_OBER, NOISE_PEZO, NOISE_POXO,
     NOISE_RANDOM, NOISE_SEMA, NOISE_STUPL, NOISE_TURBULENCE, NOISE_VL_NOISE,
     NOISE_WAVY_TURB, NOISE_CELL_VORONOI, NOISE_DISPL_VORONOI, NOISE_SPARSE_CONV,
     NOISE_VORONOI_1, NOISE_VORONOI_2, NOISE_VORONOI_3, NOISE_ZADA, NOISE_FIRE,
     NOISE_ELECTRIC, NOISE_GASEOUS] := by decide

theorem noiseTypes_eq : noiseTypes = noiseAlgos ++ [NOISE_NONE] := by decide

theorem samplingModes_eq : samplingModes = [SAMPLING_2D, SAMPLING_3D] := by decide

theorem repeats_eq : repeats =
    [REPEAT_0, REPEAT_1, REPEAT_3, REPEAT_7, REPEAT_15, REPEAT_31, REPEAT_63,
     REPEAT_127, REPEAT_255, REPEAT_511, REPEAT_1023] := by decide

theorem options_eq : options = noiseTypes ++ samplingModes ++ repeats := by decide

theorem mem_options_iff (c : Ident) : c ∈ options ↔ c ∉ paramIds := by
  cases c <;> decide

theorem mem_ofKind (c : Ident) (k : Kind) : c ∈ ofKind k ↔ c.kind = k := by
  simp [ofKind, mem_decls]

/-! ## Values inside one group -/

/-- Distinct members of a list have distinct images once the image list is
duplicate-free. -/
theorem ne_of_nodup_map {α β : Type} (f : α → β) (l : List α) (h : (l.map f).Nodup)
    {a b : α} (ha : a ∈ l) (hb : b ∈ l) (hab : a ≠ b) : f a ≠ f b :=
  fun hf => hab (List.inj_on_of_nodup_map h ha hb hf)

/-- A value occurring in a duplicate-free image list is the image of exactly
one member. -/
theorem existsUnique_of_mem_map {α β : Type} (f : α → β) (l : List α)
    (h : (l.map f).Nodup) {n : β} (hn : n ∈ l.map f) : ∃! c, c ∈ l ∧ f c = n := by
  obtain ⟨c, hc, hcn⟩ := List.mem_map.mp hn
  refine ⟨c, ⟨hc, hcn⟩, ?_⟩
  rintro d ⟨hd, hdn⟩
  exact List.inj_on_of_nodup_map h hd hc (hdn.trans hcn.symm)

theorem ofKind_values_nodup (k : Kind) : ((ofKind k).map Ident.value).Nodup := by
  cases k <;> decide

theorem paramIds_values_nodup : (paramIds.map Ident.value).Nodup := by decide

theorem noiseAlgos_values :
    noiseAlgos.map Ident.value = (List.range' 1 33).map Int.ofNat := by decide

theorem slots_values :
    slots.map Ident.value = (List.range 11).map (fun i => 5000 + Int.ofNat i) := by decide

theorem repeats_values :
    repeats.map Ident.value = (List.range 11).map (fun k => 2 ^ k - 1) := by decide

theorem value_le_of_isOption (c : Ident) (h : c.isOption = true) : c.value ≤ 1023 := by
  cases c <;> first | decide | exact absurd h (by decide)

theorem le_value_of_not_isOption (c : Ident) (h : c.isOption = false) : 5000 ≤ c.value := by
  cases c <;> first | decide | exact absurd h (by decide)

theorem mem_paramIds_of_not_isOption (c : Ident) (h : c.isOption = false) : c ∈ paramIds := by
  cases c <;> first | decide | exact absurd h (by decide)

/-! ## Distinctness inside the logical groups -/

/-- C1: any two different names among the eleven parameter-slot identifiers and
the two group identifiers have different integer values. -/
theorem paramIds_pairwise_distinct (a b : Ident) (ha : a ∈ paramIds) (hb : b ∈ paramIds)
    (hab : a ≠ b) : a.value ≠ b.value :=
  ne_of_nodup_map Ident.value paramIds paramIds_values_nodup ha hb hab

theorem paramIds_pairwise_distinct_witness :
    PYNOISEFALLOFF_H ∈ paramIds ∧ PYNOISEFALLOFF_FBMSETTINGS ∈ paramIds ∧
      PYNOISEFALLOFF_H ≠ PYNOISEFALLOFF_FBMSETTINGS ∧
      PYNOISEFALLOFF_H.value ≠ PYNOISEFALLOFF_FBMSETTINGS.value :=
  ⟨by decide, by decide, by decide,
    paramIds_pairwise_distinct PYNOISEFALLOFF_H PYNOISEFALLOFF_FBMSETTINGS
      (by decide) (by decide) (by decide)⟩

/-- C2: any two different names among the 33 `NOISE_*` algorithm constants and
`NOISE_NONE` have different integer values. -/
theorem noiseTypes_pairwise_distinct (a b : Ident) (ha : a ∈ noiseTypes)
    (hb : b ∈ noiseTypes) (hab : a ≠ b) : a.value ≠ b.value :=
  ne_of_nodup_map Ident.value noiseTypes (ofKind_values_nodup Kind.noiseType) ha hb hab

theorem noiseTypes_pairwise_distinct_witness :
    NOISE_GASEOUS ∈ noiseTypes ∧ NOISE_NONE ∈ noiseTypes ∧ NOISE_GASEOUS ≠ NOISE_NONE ∧
      NOISE_GASEOUS.value ≠ NOISE_NONE.value :=
  ⟨by decide, by decide, by decide,
    noiseTypes_pairwise_distinct NOISE_GASEOUS NOISE_NONE (by decide) (by decide) (by decide)⟩

/-- C3: there are exactly 33 algorithm constants; every integer from 1 to 33 is
the value of exactly one of them; none of them has a value outside that range;
and the sentinel `NOISE_NONE`, which is a noise type but not an algorithm, has
value 99. -/
theorem noiseAlgos_values_one_to_thirtythree :
    noiseAlgos.length = 33 ∧
    (∀ n : Int, 1 ≤ n → n ≤ 33 → ∃! c, c ∈ noiseAlgos ∧ c.value = n) ∧
    (∀ c, c ∈ noiseAlgos → 1 ≤ c.value ∧ c.value ≤ 33) ∧
    NOISE_NONE ∈ noiseTypes ∧ NOISE_NONE ∉ noiseAlgos ∧ NOISE_NONE.value = 99 := by
  refine ⟨by decide, ?_, ?_, by decide, by decide, by decide⟩
  · intro n h1 h33
    have hnd : (noiseAlgos.map Ident.value).Nodup := by
      rw [noiseAlgos_values]; decide
    apply existsUnique_of_mem_map Ident.value noiseAlgos hnd
    rw [noiseAlgos_values]
    refine List.mem_map.mpr ⟨n.toNat, ?_, ?_⟩
    · rw [List.mem_range']
      exact ⟨n.toNat - 1, by omega, by omega⟩
    · exact Int.toNat_of_nonneg (by omega)
  · intro c hc
    have hmem : c.value ∈ noiseAlgos.map Ident.value := List.mem_map.mpr ⟨c, hc, rfl⟩
    rw [noiseAlgos_values] at hmem
    obtain ⟨k, hk, hkc⟩ := List.mem_map.mp hmem
    rw [List.mem_range'] at hk
    obtain ⟨i, hi, rfl⟩ := hk
    rw [← hkc, Int.ofNat_eq_coe]
    omega

theorem noiseAlgos_values_one_to_thirtythree_witness :
    (∃! c, c ∈ noiseAlgos ∧ c.value = 17) ∧
      (1 ≤ NOISE_GASEOUS.value ∧ NOISE_GASEOUS.value ≤ 33) :=
  ⟨noiseAlgos_values_one_to_thirtythree.2.1 17 (by decide) (by decide),
    noiseAlgos_values_one_to_thirtythree.2.2.1 NOISE_GASEOUS (by decide)⟩

/-- C4: every `REPEAT_*` constant has a value of the form `2 ^ k - 1` for some
natural number `k`. -/
theorem repeats_pow_two_sub_one (c : Ident) (hc : c ∈ repeats) :
    ∃ k : Nat, c.value = 2 ^ k - 1 := by
  have hmem : c.value ∈ repeats.map Ident.value := List.mem_map.mpr ⟨c, hc, rfl⟩
  rw [repeats_values] at hmem
  obtain ⟨k, _, hk⟩ := List.mem_map.mp hmem
  exact ⟨k, hk.symm⟩

theorem repeats_pow_two_sub_one_witness :
    REPEAT_127 ∈ repeats ∧ ∃ k : Nat, REPEAT_127.value = 2 ^ k - 1 :=
  ⟨by decide, repeats_pow_two_sub_one REPEAT_127 (by decide)⟩

/-- C5: any two different names among the eleven `REPEAT_*` constants have
different integer values. -/
theorem repeats_pairwise_distinct (a b : Ident) (ha : a ∈ repeats) (hb : b ∈ repeats)
    (hab : a ≠ b) : a.value ≠ b.value :=
  ne_of_nodup_map Ident.value repeats (ofKind_values_nodup Kind.repeatPeriod) ha hb hab

theorem repeats_pairwise_distinct_witness :
    REPEAT_0 ∈ repeats ∧ REPEAT_1023 ∈ repeats ∧ REPEAT_0 ≠ REPEAT_1023 ∧
      REPEAT_0.value ≠ REPEAT_1023.value :=
  ⟨by decide, by decide, by decide,
    repeats_pairwise_distinct REPEAT_0 REPEAT_1023 (by decide) (by decide) (by decide)⟩

/-- C6: the sampling-mode options are exactly `SAMPLING_2D` and `SAMPLING_3D`
(an enumerator is a sampling mode iff it is one of the two), and the two have
different integer values. -/
theorem samplingModes_two_distinct :
    (∀ c : Ident, c ∈ samplingModes ↔ (c = SAMPLING_2D ∨ c = SAMPLING_3D)) ∧
    samplingModes.length = 2 ∧
    SAMPLING_2D ≠ SAMPLING_3D ∧
    SAMPLING_2D.value ≠ SAMPLING_3D.value := by
  refine ⟨?_, by decide, by decide, by decide⟩
  intro c
  rw [samplingModes_eq]
  simp

/-! ## The header as a whole -/

/-- C7, as stated, fails: `SAMPLING_2D` and `REPEAT_0` are different
enumerators of the one enum and both have value 0. -/
theorem header_values_not_all_distinct :
    ¬ (∀ a b : Ident, a ≠ b → a.value ≠ b.value) :=
  fun h => h SAMPLING_2D REPEAT_0 (by decide) (by decide)

/-- C7, amended: two different enumerators of the header have different values
whenever at least one of them is a parameter-slot or group identifier, or both
belong to the same logical group (both noise types, both sampling modes, or
both repeat periods). -/
theorem header_values_distinct_within_scope (a b : Ident) (hab : a ≠ b)
    (h : a.isOption = false ∨ b.isOption = false ∨ a.kind = b.kind) :
    a.value ≠ b.value := by
  rcases h with h | h | h
  · cases hbo : b.isOption
    · exact ne_of_nodup_map Ident.value paramIds paramIds_values_nodup
        (mem_paramIds_of_not_isOption a h) (mem_paramIds_of_not_isOption b hbo) hab
    · have h1 := le_value_of_not_isOption a h
      have h2 := value_le_of_isOption b hbo
      omega
  · cases hao : a.isOption
    · exact ne_of_nodup_map Ident.value paramIds paramIds_values_nodup
        (mem_paramIds_of_not_isOption a hao) (mem_paramIds_of_not_isOption b h) hab
    · have h1 := le_value_of_not_isOption b h
      have h2 := value_le_of_isOption a hao
      omega
  · exact ne_of_nodup_map Ident.value (ofKind b.kind) (ofKind_values_nodup b.kind)
      ((mem_ofKind a b.kind).mpr h) ((mem_ofKind b b.kind).mpr rfl) hab

theorem header_values_distinct_within_scope_witness :
    NOISE_BOX_NOISE ≠ PYNOISEFALLOFF_SEED ∧
      (NOISE_BOX_NOISE.isOption = false ∨ PYNOISEFALLOFF_SEED.isOption = false ∨
        NOISE_BOX_NOISE.kind = PYNOISEFALLOFF_SEED.kind) ∧
      NOISE_BOX_NOISE.value ≠ PYNOISEFALLOFF_SEED.value :=
  ⟨by decide, by decide,
    header_values_distinct_within_scope NOISE_BOX_NOISE PYNOISEFALLOFF_SEED
      (by decide) (by decide)⟩

/-- C8: every option value (`NOISE_*`, `SAMPLING_*`, `REPEAT_*`) is strictly
smaller than every parameter-slot identifier, every parameter-slot identifier is
strictly smaller than both group identifiers, and the three sets of values are
pairwise disjoint. -/
theorem options_lt_slots_lt_groups :
    (∀ o, o ∈ noiseTypes ++ samplingModes ++ repeats → ∀ s, s ∈ slots → o.value < s.value) ∧
    (∀ s, s ∈ slots → ∀ g, g ∈ groups → s.value < g.value) ∧
    List.Disjoint ((noiseTypes ++ samplingModes ++ repeats).map Ident.value)
      (slots.map Ident.value) ∧
    List.Disjoint (slots.map Ident.value) (groups.map Ident.value) ∧
    List.Disjoint ((noiseTypes ++ samplingModes ++ repeats).map Ident.value)
      (groups.map Ident.value) := by
  have hos : ∀ o, o ∈ noiseTypes ++ samplingModes ++ repeats →
      ∀ s, s ∈ slots → o.value < s.value := by
    intro o ho s hs
    rw [← options_eq] at ho
    have ho1 : o.isOption = true := by simpa [options] using (List.mem_filter.mp ho).2
    have hs1 : s.isOption = false := by
      have hk := (mem_ofKind s Kind.slot).mp hs
      simp [Ident.isOption, hk]
    have h1 := value_le_of_isOption o ho1
    have h2 := le_value_of_not_isOption s hs1
    omega
  have hsg : ∀ s, s ∈ slots → ∀ g, g ∈ groups → s.value < g.value := by decide
  refine ⟨hos, hsg, ?_, ?_, ?_⟩
  · intro v hv hv2
    obtain ⟨o, ho, rfl⟩ := List.mem_map.mp hv
    obtain ⟨s, hs, hso⟩ := List.mem_map.mp hv2
    have := hos o ho s hs
    omega
  · intro v hv hv2
    obtain ⟨s, hs, rfl⟩ := List.mem_map.mp hv
    obtain ⟨g, hg, hgs⟩ := List.mem_map.mp hv2
    have := hsg s hs g hg
    omega
  · intro v hv hv2
    obtain ⟨o, ho, rfl⟩ := List.mem_map.mp hv
    obtain ⟨g, hg, hgo⟩ := List.mem_map.mp hv2
    have h1 := hos o ho PYNOISEFALLOFF_SEED (by decide)
    have h2 := hsg PYNOISEFALLOFF_SEED (by decide) g hg
    omega

theorem options_lt_slots_lt_groups_witness :
    REPEAT_1023.value < PYNOISEFALLOFF_SEED.value ∧
      PYNOISEFALLOFF_H.value < PYNOISEFALLOFF_SETTINGS.value :=
  ⟨options_lt_slots_lt_groups.1 REPEAT_1023 (by decide) PYNOISEFALLOFF_SEED (by decide),
    options_lt_slots_lt_groups.2.1 PYNOISEFALLOFF_H (by decide)
      PYNOISEFALLOFF_SETTINGS (by decide)⟩

/-- C9: in declaration order the slot identifiers are SEED, TYPE, SAMPLING,
SAMPRAD, DETATT, REPEAT, OCTAVES, ABSOLUTE, MAXOCTAVE, LACUNARITY, H; the
`i`-th of them has value `5000 + i`; and every integer from 5000 to 5010 is the
value of exactly one slot identifier. -/
theorem slots_gap_free_block :
    slots =
      [PYNOISEFALLOFF_SEED, PYNOISEFALLOFF_TYPE, PYNOISEFALLOFF_SAMPLING,
       PYNOISEFALLOFF_SAMPRAD, PYNOISEFALLOFF_DETATT, PYNOISEFALLOFF_REPEAT,
       PYNOISEFALLOFF_OCTAVES, PYNOISEFALLOFF_ABSOLUTE, PYNOISEFALLOFF_MAXOCTAVE,
       PYNOISEFALLOFF_LACUNARITY, PYNOISEFALLOFF_H] ∧
    (∀ i, ∀ h : i < slots.length, (slots.get ⟨i, h⟩).value = 5000 + (i : Int)) ∧
    (∀ n : Int, 5000 ≤ n → n ≤ 5010 → ∃! c, c ∈ slots ∧ c.value = n) := by
  refine ⟨slots_eq, by decide, ?_⟩
  intro n h1 h2
  apply existsUnique_of_mem_map Ident.value slots (ofKind_values_nodup Kind.slot)
  rw [slots_values]
  refine List.mem_map.mpr ⟨(n - 5000).toNat, List.mem_range.mpr (by omega), ?_⟩
  rw [Int.ofNat_eq_coe, Int.toNat_of_nonneg (by omega)]
  omega

theorem slots_gap_free_block_witness :
    (slots.get ⟨10, by decide⟩).value = 5000 + ((10 : Nat) : Int) ∧
      (∃! c, c ∈ slots ∧ c.value = 5007) :=
  ⟨slots_gap_free_block.2.1 10 (by decide),
    slots_gap_free_block.2.2 5007 (by decide) (by decide)⟩

/-- C10: there are eleven `REPEAT_*` constants; an integer is the value of one
of them iff it is `2 ^ k - 1` for some `k` with `0 ≤ k ≤ 10`; no value occurs
twice; and in declaration order the first value is 0 and every later value is
twice its predecessor plus one. -/
theorem repeats_complete_doubling :
    repeats.length = 11 ∧
    (∀ v : Int, (∃ c, c ∈ repeats ∧ c.value = v) ↔ ∃ k : Nat, k ≤ 10 ∧ v = 2 ^ k - 1) ∧
    (repeats.map Ident.value).Nodup ∧
    (repeats.map Ident.value).head? = some 0 ∧
    (∀ i, ∀ h : i + 1 < repeats.length,
      (repeats.get ⟨i + 1, h⟩).value = 2 * (repeats.get ⟨i, Nat.lt_of_succ_lt h⟩).value + 1) := by
  refine ⟨by decide, ?_, ofKind_values_nodup Kind.repeatPeriod, by decide, ?_⟩
  swap
  · intro i h
    have h11 : i + 1 < 11 := h
    have hi : i < 10 := by omega
    interval_cases i <;> rfl
  intro v
  constructor
  · rintro ⟨c, hc, rfl⟩
    have hmem : c.value ∈ repeats.map Ident.value := List.mem_map.mpr ⟨c, hc, rfl⟩
    rw [repeats_values] at hmem
    obtain ⟨k, hk, hkv⟩ := List.mem_map.mp hmem
    exact ⟨k, by have := List.mem_range.mp hk; omega, hkv.symm⟩
  · rintro ⟨k, hk, rfl⟩
    have hmem : (2 ^ k - 1 : Int) ∈ repeats.map Ident.value := by
      rw [repeats_values]
      exact List.mem_map.mpr ⟨k, List.mem_range.mpr (by omega), rfl⟩
    obtain ⟨c, hc, hcv⟩ := List.mem_map.mp hmem
    exact ⟨c, hc, hcv⟩

theorem repeats_complete_doubling_witness :
    (repeats.get ⟨4, by decide⟩).value = 2 * (repeats.get ⟨3, by decide⟩).value + 1 :=
  repeats_complete_doubling.2.2.2.2 3 (by decide)

end OfalloffPynoise
